import Mathlib

/-!
Shallow embedding of the `expense_tracker` repository
(`src/expense_tracker/models.py`, `storage.py`, `services.py`).

Modelling conventions:
* Python `float` amounts are modelled as `ℚ` (no claim depends on rounding).
* `datetime.date` is modelled by a `Date` record of numerals.  Python's
  `date` only admits `1 ≤ year` and `1 ≤ month ≤ 12`; theorems that need
  this state it as a hypothesis.
* The persisted JSON document is the `Record` structure; each storage
  operation is a pure function on it.  File I/O is assumed to succeed
  (the claims under study are not about I/O failure).
* Python `str.strip()` is `pystrip`, built from `List.dropWhile` on both
  ends with `Char.isWhitespace` as the whitespace predicate.
* The budget month-key `f"{year:04d}-{month:02d}"` is injective on
  `(year, month)` pairs, so budget keys are modelled as `Nat × Nat`
  (year, month); the `budgets` dict is an association list with
  insert-or-overwrite semantics like a Python dict.
* A fallible Python method that may also have already written to storage
  is modelled as `Record × Except Err α`: the first component is the
  persisted record when the exception propagates to the caller.
* The budget-warning f-string is modelled as a `Warning` structure
  carrying exactly the data the message interpolates (month-key, budget,
  spent).
* In `add_expense`, the line `date = spent_on or date.today()` makes
  `date` a local variable of the method, so when `spent_on` is `None`
  the call of `date.today()` raises `UnboundLocalError`; this is
  modelled by `Err.unboundLocal`.
-/

namespace ExpenseTracker

/-- Python `str.strip()`: drop whitespace from both ends. -/
def pystrip (s : String) : String :=
  String.mk (((s.data.dropWhile Char.isWhitespace).reverse.dropWhile
      Char.isWhitespace).reverse)

/-- Model of `datetime.date` (a real Python date also satisfies
`1 ≤ year` and `1 ≤ month ≤ 12`; stated as hypotheses where needed). -/
structure Date where
  year : Nat
  month : Nat
  day : Nat
deriving DecidableEq, Repr

/-- `models.Expense` (dataclass fields, after `__post_init__` parsed
any string date). -/
structure Expense where
  id : Nat
  description : String
  amount : ℚ
  date : Date
  category : Option String
deriving DecidableEq, Repr

/-- The persisted JSON document: `{last_id, expenses, budgets}`.
`budgets` maps the (year, month) key to the budget amount. -/
structure Record where
  last_id : Nat
  expenses : List Expense
  budgets : List ((Nat × Nat) × ℚ)
deriving DecidableEq, Repr

/-- The error kinds raised by the code: `ValueError` for invalid input,
`ValueError("... not found")` for missing ids, and the
`UnboundLocalError` raised by `add_expense`'s shadowed `date` local. -/
inductive Err where
  | invalidInput : String → Err
  | notFound : String → Err
  | unboundLocal : String → Err
deriving DecidableEq, Repr

/-- Whether an error is of the `InvalidInput` kind. -/
def Err.isInvalidInput : Err → Bool
  | Err.invalidInput _ => true
  | _ => false

/-- Whether an error is of the `NotFound` kind. -/
def Err.isNotFound : Err → Bool
  | Err.notFound _ => true
  | _ => false

/-- Python dict lookup `budgets.get(key)` on the association list. -/
def budgetsGet (bs : List ((Nat × Nat) × ℚ)) (k : Nat × Nat) : Option ℚ :=
  match bs.find? (fun p => p.1 == k) with
  | none => none
  | some p => some p.2

/-- Python dict store `budgets[key] = v`: overwrite in place if the key
is present, otherwise append (dicts keep insertion order). -/
def budgetsSet (bs : List ((Nat × Nat) × ℚ)) (k : Nat × Nat) (v : ℚ) :
    List ((Nat × Nat) × ℚ) :=
  if bs.any (fun p => p.1 == k) then
    bs.map (fun p => if p.1 == k then (k, v) else p)
  else
    bs ++ [(k, v)]

/-- `Expense.__post_init__`: empty/whitespace description and negative
amount are rejected, in that order. -/
def mkExpense (id : Nat) (description : String) (amount : ℚ) (date : Date)
    (category : Option String) : Except Err Expense :=
  if pystrip description = "" then
    Except.error (Err.invalidInput "Description cannot be empty")
  else if amount < 0 then
    Except.error (Err.invalidInput "Amount cannot be negative")
  else
    Except.ok { id := id, description := description, amount := amount,
                date := date, category := category }

/-- `ExpenseStorage.get_all_expenses`. -/
def get_all_expenses (r : Record) : List Expense :=
  r.expenses

/-- `ExpenseStorage.save_all_expenses`: read-modify-write replacing only
the `expenses` field. -/
def save_all_expenses (r : Record) (expenses : List Expense) : Record :=
  { r with expenses := expenses }

/-- `ExpenseStorage.next_id`: increments `last_id`, persists, returns the
new value together with the persisted record. -/
def next_id (r : Record) : Record × Nat :=
  ({ r with last_id := r.last_id + 1 }, r.last_id + 1)

/-- `ExpenseStorage.get_budgets`. -/
def get_budgets (r : Record) : List ((Nat × Nat) × ℚ) :=
  r.budgets

/-- `ExpenseStorage.set_budget`. -/
def set_budget (r : Record) (k : Nat × Nat) (v : ℚ) : Record :=
  { r with budgets := budgetsSet r.budgets k v }

/-- Python `x or default` for an optional int argument: `None` and `0`
are both falsy and select the default. -/
def pyOrNat (o : Option Nat) (d : Nat) : Nat :=
  match o with
  | none => d
  | some n => if n = 0 then d else n

/-- `ExpenseService._month_key` — the string `"YYYY-MM"` is injective on
(year, month), so the key is kept as the pair. -/
def month_key (year month : Nat) : Nat × Nat :=
  (year, month)

/-- `ExpenseService.get_monthly_budget`: defaults falsy month/year to
today's, validates the month range, then looks the key up. -/
def get_monthly_budget (today : Date) (r : Record)
    (m? y? : Option Nat) : Except Err (Option ℚ) :=
  let month := pyOrNat m? today.month
  let year := pyOrNat y? today.year
  if 1 ≤ month ∧ month ≤ 12 then
    Except.ok (budgetsGet (get_budgets r) (month_key year month))
  else
    Except.error (Err.invalidInput "Month must be between 1 and 12")

/-- `ExpenseService.set_monthly_budget`: rejects a negative amount first,
then defaults falsy month/year, validates the month range, stores the
budget and returns the key. -/
def set_monthly_budget (today : Date) (r : Record) (amount : ℚ)
    (m? y? : Option Nat) : Record × Except Err (Nat × Nat) :=
  if amount < 0 then
    (r, Except.error (Err.invalidInput "Budget cannot be negative"))
  else
    let month := pyOrNat m? today.month
    let year := pyOrNat y? today.year
    if 1 ≤ month ∧ month ≤ 12 then
      let key := month_key year month
      (set_budget r key amount, Except.ok key)
    else
      (r, Except.error (Err.invalidInput "Month must be between 1 and 12"))

/-- `ExpenseService.spent_for_month`: sum of amounts of the expenses
whose date lies in the given year and month. -/
def spent_for_month (r : Record) (month year : Nat) : ℚ :=
  (((get_all_expenses r).filter
      (fun e => e.date.year == year && e.date.month == month)).map
    (fun e => e.amount)).sum

/-- The data interpolated into the budget-exceeded warning message:
the month-key, the budget and the spent amount. -/
structure Warning where
  key : Nat × Nat
  budget : ℚ
  spent : ℚ
deriving DecidableEq, Repr

/-- `ExpenseService.budget_warning_for_month`: no budget stored means no
warning; otherwise warn exactly when spent exceeds the budget.  The
message's key uses the year argument as given (not the defaulted one). -/
def budget_warning_for_month (today : Date) (r : Record)
    (month year : Nat) : Except Err (Option Warning) :=
  match get_monthly_budget today r (some month) (some year) with
  | Except.error e => Except.error e
  | Except.ok none => Except.ok none
  | Except.ok (some budget) =>
      let spent := spent_for_month r month year
      if budget < spent then
        Except.ok (some { key := month_key year month, budget := budget,
                          spent := spent })
      else
        Except.ok none

/-- `ExpenseService.add_expense`.  Faithful to the source order:
read all expenses; evaluate `date = spent_on or date.today()` (which
raises `UnboundLocalError` when `spent_on` is `None`, since the
assignment shadows the imported `date`); call `next_id` (which writes
`last_id` back) before `Expense` validation runs; append and save;
finally compute the budget warning against the saved record. -/
def add_expense (today : Date) (r : Record) (description : String)
    (amount : ℚ) (category : Option String) (spent_on : Option Date) :
    Record × Except Err (Expense × Option Warning) :=
  match spent_on with
  | none =>
      (r, Except.error (Err.unboundLocal
        "local variable referenced before assignment"))
  | some d =>
      match mkExpense (next_id r).2 description amount d category with
      | Except.error e => ((next_id r).1, Except.error e)
      | Except.ok expense =>
          match budget_warning_for_month today
              (save_all_expenses (next_id r).1
                (get_all_expenses r ++ [expense])) d.month d.year with
          | Except.error e =>
              (save_all_expenses (next_id r).1
                (get_all_expenses r ++ [expense]), Except.error e)
          | Except.ok w =>
              (save_all_expenses (next_id r).1
                (get_all_expenses r ++ [expense]), Except.ok (expense, w))

/-- `if description is not None: e.description = description` — the
description is overwritten with no validation. -/
def withDescription (e : Expense) (d? : Option String) : Expense :=
  match d? with
  | none => e
  | some d => { e with description := d }

/-- `if category is not None: e.category = category`. -/
def withCategory (e : Expense) (c? : Option String) : Expense :=
  match c? with
  | none => e
  | some c => { e with category := some c }

/-- The in-place field updates `update_expense` performs on the matched
expense: description is overwritten without validation, a negative
amount is rejected, category is overwritten when provided. -/
def applyUpdate (e : Expense) (d? : Option String) (a? : Option ℚ)
    (c? : Option String) : Except Err Expense :=
  match a? with
  | some a =>
      if a < 0 then
        Except.error (Err.invalidInput "Amount cannot be negative")
      else
        Except.ok (withCategory
          { withDescription e d? with amount := a } c?)
  | none =>
      Except.ok (withCategory (withDescription e d?) c?)

/-- The linear scan of `update_expense`: find the first expense with the
given id, apply the field updates to it in place.  `none` means no
expense matched. -/
def updateFirst (es : List Expense) (i : Nat) (d? : Option String)
    (a? : Option ℚ) (c? : Option String) :
    Option (Except Err (List Expense × Expense)) :=
  match es with
  | [] => none
  | e :: rest =>
      if e.id = i then
        some (match applyUpdate e d? a? c? with
          | Except.error err => Except.error err
          | Except.ok e2 => Except.ok (e2 :: rest, e2))
      else
        (updateFirst rest i d? a? c?).map (fun res =>
          match res with
          | Except.error err => Except.error err
          | Except.ok p => Except.ok (e :: p.1, p.2))

/-- `ExpenseService.update_expense`. -/
def update_expense (today : Date) (r : Record) (expense_id : Nat)
    (d? : Option String) (a? : Option ℚ) (c? : Option String) :
    Record × Except Err (Expense × Option Warning) :=
  match updateFirst (get_all_expenses r) expense_id d? a? c? with
  | none => (r, Except.error (Err.notFound "Expense not found"))
  | some (Except.error err) => (r, Except.error err)
  | some (Except.ok p) =>
      match budget_warning_for_month today (save_all_expenses r p.1)
          p.2.date.month p.2.date.year with
      | Except.error err => (save_all_expenses r p.1, Except.error err)
      | Except.ok w => (save_all_expenses r p.1, Except.ok (p.2, w))

/-- `ExpenseService.delete_expense`: filter out the id; if nothing was
removed raise not-found, else persist the filtered list. -/
def delete_expense (r : Record) (expense_id : Nat) :
    Record × Except Err Unit :=
  if ((get_all_expenses r).filter (fun e => e.id != expense_id)).length =
      (get_all_expenses r).length then
    (r, Except.error (Err.notFound "Expense not found"))
  else
    (save_all_expenses r
      ((get_all_expenses r).filter (fun e => e.id != expense_id)),
      Except.ok ())

/-- `ExpenseService.list_expenses`. -/
def list_expenses (r : Record) : List Expense :=
  get_all_expenses r

/-- `ExpenseService.total_expenses`. -/
def total_expenses (r : Record) : ℚ :=
  ((get_all_expenses r).map (fun e => e.amount)).sum

/-- The contribution of one expense to `get_categories`: its trimmed
category when present and non-blank. -/
def catOf (e : Expense) : Option String :=
  match e.category with
  | none => none
  | some c => if pystrip c = "" then none else some (pystrip c)

/-- `ExpenseService.get_categories`: the set of trimmed non-blank
category values. -/
def get_categories (r : Record) : Finset String :=
  ((get_all_expenses r).filterMap catOf).toFinset

/-- `ExpenseService.list_expenses_by_category`: rejects a blank category,
otherwise filters by exact trimmed match. -/
def list_expenses_by_category (r : Record) (category : String) :
    Except Err (List Expense) :=
  if pystrip category = "" then
    Except.error (Err.invalidInput "Category cannot be empty")
  else
    Except.ok ((get_all_expenses r).filter (fun e =>
      match e.category with
      | none => false
      | some c => pystrip c == pystrip category))

/-! Helper lemmas about `pystrip` and the list operations the services
are built from. -/

/-- Both-ends `dropWhile`: the `List Char` form of `pystrip`. -/
def stripEnds {α : Type} (p : α → Bool) (l : List α) : List α :=
  ((l.dropWhile p).reverse.dropWhile p).reverse

/-- The budget-warning property as the claim words it (the comparison
definition for this refinement-style claim): absent when no budget is
stored under the `(year, month)` key; otherwise a warning carrying that
key, the stored budget and the spent amount, present exactly when the
spent amount strictly exceeds the budget. -/
def claimed_budget_warning (r : Record) (month year : Nat) :
    Option Warning :=
  match budgetsGet r.budgets (year, month) with
  | none => none
  | some b =>
      if b < spent_for_month r month year then
        some { key := (year, month), budget := b,
               spent := spent_for_month r month year }
      else none

/-! A small operation language for traces of service calls, used to state
the id-assignment claim over sequences of adds and deletes. -/

/-- One service call in a trace: an `add_expense` or a `delete_expense`. -/
inductive Op where
  | addOp (description : String) (amount : ℚ) (category : Option String)
      (spent_on : Option Date)
  | delOp (expense_id : Nat)

/-- Run one operation; the result is the persisted record plus, for a
successful add, the id the service assigned. -/
def applyOp (today : Date) (r : Record) : Op → Record × Except Err (Option Nat)
  | Op.addOp d a c s =>
      ((add_expense today r d a c s).1,
        (add_expense today r d a c s).2.map (fun p => some p.1.id))
  | Op.delOp i =>
      ((delete_expense r i).1, (delete_expense r i).2.map (fun _ => none))

/-- Whether every `add_expense` in the trace succeeds (deletes may fail;
a failed delete writes nothing). -/
def allAddsOk (today : Date) : Record → List Op → Bool
  | _, [] => true
  | r, op :: ops =>
      match op, (applyOp today r op).2 with
      | Op.addOp _ _ _ _, Except.ok _ =>
          allAddsOk today (applyOp today r op).1 ops
      | Op.addOp _ _ _ _, Except.error _ => false
      | Op.delOp _, _ => allAddsOk today (applyOp today r op).1 ops

/-- The ids assigned by the successful adds of a trace, in order. -/
def assignedIds (today : Date) : Record → List Op → List Nat
  | _, [] => []
  | r, op :: ops =>
      match (applyOp today r op).2 with
      | Except.ok (some i) => i :: assignedIds today (applyOp today r op).1 ops
      | _ => assignedIds today (applyOp today r op).1 ops

/-- The number of adds in a trace. -/
def countAdds : List Op → Nat
  | [] => 0
  | Op.addOp _ _ _ _ :: ops => countAdds ops + 1
  | Op.delOp _ :: ops => countAdds ops

/-- Decidable equality for `Except`, used to evaluate the operations on
concrete inputs. -/
instance instDecEqExcept {ε α : Type} [DecidableEq ε] [DecidableEq α] :
    DecidableEq (Except ε α) := fun a b =>
  match a, b with
  | Except.error x, Except.error y =>
      if h : x = y then isTrue (h ▸ rfl)
      else isFalse (fun hc => h (by injection hc))
  | Except.error _, Except.ok _ => isFalse (fun hc => Except.noConfusion hc)
  | Except.ok _, Except.error _ => isFalse (fun hc => Except.noConfusion hc)
  | Except.ok x, Except.ok y =>
      if h : x = y then isTrue (h ▸ rfl)
      else isFalse (fun hc => h (by injection hc))

/-! Concrete fixtures used by counterexamples and witnesses. -/

/-- A fixed current date for the concrete scenarios. -/
def testToday : Date :=
  { year := 2024, month := 6, day := 15 }

/-- The freshly initialised record `{last_id: 0, expenses: [], budgets: \x7b\x7d}`. -/
def emptyRecord : Record :=
  { last_id := 0, expenses := [], budgets := [] }

/-- The "Lunch" expense of the spec's budget scenario. -/
def lunchExpense : Expense :=
  { id := 1, description := "Lunch", amount := 20,
    date := { year := 2024, month := 3, day := 5 },
    category := some " Food " }

/-- A record holding the Lunch expense and a 2024-03 budget of 15. -/
def marchRecord : Record :=
  { last_id := 1, expenses := [lunchExpense], budgets := [((2024, 3), 15)] }

/-- A record holding the Lunch expense and no budgets. -/
def blankRecord : Record :=
  { last_id := 1, expenses := [lunchExpense], budgets := [] }

/-- A demonstration trace: add, delete the assigned id, add again. -/
def demoOps : List Op :=
  [Op.addOp "Lunch" 20 none (some { year := 2024, month := 3, day := 5 }),
   Op.delOp 1,
   Op.addOp "Tea" 3 none (some { year := 2024, month := 3, day := 6 })]

/-! Helper lemmas. -/

lemma pystrip_eq (s : String) :
    pystrip s = String.mk (stripEnds Char.isWhitespace s.data) := rfl

lemma dropWhile_dropWhile {α : Type} (p : α → Bool) (l : List α) :
    (l.dropWhile p).dropWhile p = l.dropWhile p := by
  induction l with
  | nil => rfl
  | cons a t ih =>
      by_cases h : p a
      · simp [List.dropWhile, h, ih]
      · simp [List.dropWhile, h]

lemma dropWhile_head_not {α : Type} (p : α → Bool) (l : List α) :
    l.dropWhile p = [] ∨
      ∃ a t, l.dropWhile p = a :: t ∧ p a = false := by
  induction l with
  | nil => left; rfl
  | cons a t ih =>
      by_cases h : p a
      · simpa [List.dropWhile, h] using ih
      · right
        exact ⟨a, t, by simp [List.dropWhile, h], by simp [h]⟩

lemma stripEnds_idem {α : Type} (p : α → Bool) (l : List α) :
    stripEnds p (stripEnds p l) = stripEnds p l := by
  unfold stripEnds
  set A := l.dropWhile p with hA
  set B := (A.reverse.dropWhile p).reverse with hB
  obtain ⟨C, hsplit⟩ : ∃ C, A = B ++ C := by
    refine ⟨(A.reverse.takeWhile p).reverse, ?_⟩
    conv_lhs =>
      rw [← List.reverse_reverse A,
        ← List.takeWhile_append_dropWhile (p := p) (l := A.reverse)]
    rw [List.reverse_append, hB]
  have hBd : B.dropWhile p = B := by
    cases hBc : B with
    | nil => rfl
    | cons b bt =>
        have hAc : A = b :: (bt ++ C) := by
          rw [hsplit, hBc]
          rfl
        have hpb : p b = false := by
          rcases dropWhile_head_not p l with h0 | ⟨a, t, h1, h2⟩
          · rw [← hA] at h0
            rw [h0] at hAc
            exact absurd hAc (by simp)
          · rw [← hA] at h1
            rw [h1] at hAc
            have hab : a = b := by injection hAc with hh _
            rw [← hab]
            exact h2
        simp [List.dropWhile, hpb]
  rw [hBd, hB, List.reverse_reverse, dropWhile_dropWhile]

lemma pystrip_idem (s : String) : pystrip (pystrip s) = pystrip s := by
  rw [pystrip_eq s, pystrip_eq]
  show String.mk (stripEnds Char.isWhitespace
      (stripEnds Char.isWhitespace s.data)) = _
  rw [stripEnds_idem]

/-- A stored budget value is non-negative when all budgets are. -/
lemma budgetsGet_nonneg {bs : List ((Nat × Nat) × ℚ)} {k : Nat × Nat}
    {v : ℚ} (hb : ∀ p ∈ bs, 0 ≤ p.2) (h : budgetsGet bs k = some v) :
    0 ≤ v := by
  unfold budgetsGet at h
  cases hf : bs.find? (fun p => p.1 == k) with
  | none =>
      rw [hf] at h
      exact Option.noConfusion h
  | some p =>
      rw [hf] at h
      injection h with h1
      rw [← h1]
      exact hb p (List.mem_of_find?_eq_some hf)

/-- When every stored date has a positive year, nothing is spent in
"year 0" (the phantom year produced by Python's falsy-zero defaulting). -/
lemma spent_for_month_year_zero {r : Record} {m : Nat}
    (h : ∀ e ∈ r.expenses, 1 ≤ e.date.year) :
    spent_for_month r m 0 = 0 := by
  unfold spent_for_month get_all_expenses
  have hf : r.expenses.filter
      (fun e => e.date.year == 0 && e.date.month == m) = [] := by
    rw [List.filter_eq_nil_iff]
    intro e he
    have h1 := h e he
    simp only [Bool.and_eq_true, beq_iff_eq, not_and]
    intro h0
    omega
  rw [hf]
  rfl

/-- Evaluating `get_monthly_budget` with a valid explicit month: it
succeeds and looks the `(defaulted year, month)` key up. -/
lemma get_monthly_budget_eval (today : Date) (r : Record) (m y : Nat)
    (hm1 : 1 ≤ m) (hm2 : m ≤ 12) (hm0 : m ≠ 0) :
    get_monthly_budget today r (some m) (some y) =
      Except.ok (budgetsGet r.budgets (pyOrNat (some y) today.year, m)) := by
  unfold get_monthly_budget
  simp only [pyOrNat]
  rw [if_neg hm0, if_pos ⟨hm1, hm2⟩]
  rfl

/-- Inverting a successful `Expense` construction. -/
lemma mkExpense_ok {i : Nat} {description : String} {amount : ℚ}
    {date : Date} {category : Option String} {e : Expense}
    (h : mkExpense i description amount date category = Except.ok e) :
    e = { id := i, description := description, amount := amount,
          date := date, category := category } ∧
    pystrip description ≠ "" ∧ ¬ amount < 0 := by
  unfold mkExpense at h
  by_cases h1 : pystrip description = ""
  · rw [if_pos h1] at h
    exact absurd h (by simp)
  · rw [if_neg h1] at h
    by_cases h2 : amount < 0
    · rw [if_pos h2] at h
      exact absurd h (by simp)
    · rw [if_neg h2] at h
      injection h with h3
      exact ⟨h3.symm, h1, h2⟩

/-- A successful `add_expense` assigns id `last_id + 1` and persists a
record whose `last_id` is `last_id + 1`. -/
lemma add_expense_ok {today : Date} {r : Record} {description : String}
    {amount : ℚ} {category : Option String} {spent_on : Option Date}
    {p : Expense × Option Warning}
    (h : (add_expense today r description amount category spent_on).2 =
      Except.ok p) :
    p.1.id = r.last_id + 1 ∧
    (add_expense today r description amount category spent_on).1.last_id =
      r.last_id + 1 := by
  unfold add_expense at h ⊢
  split at h
  · exact Except.noConfusion h
  · split at h
    · exact Except.noConfusion h
    · split at h
      · exact Except.noConfusion h
      · rename_i spent d x1 expense hm x2 w hw
        obtain ⟨he, -, -⟩ := mkExpense_ok hm
        have h3 : (expense, w) = p := by injection h
        refine ⟨?_, rfl⟩
        rw [← h3, he]
        rfl

/-- `delete_expense` never changes `last_id`. -/
lemma delete_expense_last_id (r : Record) (i : Nat) :
    (delete_expense r i).1.last_id = r.last_id := by
  unfold delete_expense
  split
  · rfl
  · rfl

/-- A successful in-place update keeps a non-negative amount
non-negative: the amount is either untouched or validated. -/
lemma withDescription_amount (e : Expense) (d? : Option String) :
    (withDescription e d?).amount = e.amount := by
  cases d? <;> rfl

lemma withCategory_amount (e : Expense) (c? : Option String) :
    (withCategory e c?).amount = e.amount := by
  cases c? <;> rfl

lemma applyUpdate_amount {e : Expense} {d? : Option String} {a? : Option ℚ}
    {c? : Option String} {e2 : Expense}
    (h : applyUpdate e d? a? c? = Except.ok e2) (he : 0 ≤ e.amount) :
    0 ≤ e2.amount := by
  cases a? with
  | none =>
      unfold applyUpdate at h
      injection h with h1
      rw [← h1, withCategory_amount, withDescription_amount]
      exact he
  | some a =>
      replace h : (if a < 0 then
            (Except.error (Err.invalidInput "Amount cannot be negative") :
              Except Err Expense)
          else
            Except.ok (withCategory
              { withDescription e d? with amount := a } c?)) =
          Except.ok e2 := h
      by_cases ha : a < 0
      · rw [if_pos ha] at h
        exact Except.noConfusion h
      · rw [if_neg ha] at h
        injection h with h1
        rw [← h1, withCategory_amount]
        exact not_lt.mp ha

/-- Elements of the list produced by a successful `updateFirst`: each is
an original expense or the successful update of an original one. -/
lemma updateFirst_mem {es : List Expense} {i : Nat} {d? : Option String}
    {a? : Option ℚ} {c? : Option String} {es2 : List Expense} {e2 : Expense}
    (h : updateFirst es i d? a? c? = some (Except.ok (es2, e2))) :
    ∀ x ∈ es2, x ∈ es ∨
      ∃ x0, x0 ∈ es ∧ applyUpdate x0 d? a? c? = Except.ok x := by
  induction es generalizing es2 with
  | nil => exact Option.noConfusion h
  | cons e rest ih =>
      unfold updateFirst at h
      by_cases hid : e.id = i
      · rw [if_pos hid] at h
        cases ha : applyUpdate e d? a? c? with
        | error err =>
            rw [ha] at h
            injection h with h1
            exact Except.noConfusion h1
        | ok eu =>
            rw [ha] at h
            injection h with h1
            injection h1 with h2
            injection h2 with h3 h4
            intro x hx
            rw [← h3] at hx
            rcases List.mem_cons.mp hx with rfl | hx2
            · right
              exact ⟨e, List.mem_cons_self e rest, ha⟩
            · left
              exact List.mem_cons_of_mem e hx2
      · rw [if_neg hid] at h
        cases hrec : updateFirst rest i d? a? c? with
        | none =>
            rw [hrec] at h
            exact Option.noConfusion h
        | some res =>
            rw [hrec] at h
            cases res with
            | error err =>
                injection h with h1
                exact Except.noConfusion h1
            | ok q =>
                injection h with h1
                injection h1 with h2
                injection h2 with h3 h4
                intro x hx
                rw [← h3] at hx
                rcases List.mem_cons.mp hx with rfl | hx2
                · left
                  exact List.mem_cons_self x rest
                · rcases ih (by rw [hrec, ← h4]) x hx2 with hL | ⟨x0, hx0, hap⟩
                  · left
                    exact List.mem_cons_of_mem e hL
                  · right
                    exact ⟨x0, List.mem_cons_of_mem e hx0, hap⟩

/-- The record `add_expense` leaves behind: either the expense list is
untouched (failure before the save) or a validated expense is appended. -/
lemma add_expense_expenses (today : Date) (r : Record)
    (description : String) (amount : ℚ) (category : Option String)
    (spent_on : Option Date) :
    (add_expense today r description amount category spent_on).1.expenses =
      r.expenses ∨
    ∃ ex, (add_expense today r description amount category
        spent_on).1.expenses = r.expenses ++ [ex] ∧
      0 ≤ ex.amount ∧ pystrip ex.description ≠ "" := by
  unfold add_expense
  split
  · left
    rfl
  · split
    · left
      rfl
    · rename_i d x expense hm
      obtain ⟨he, hd, ha⟩ := mkExpense_ok hm
      have hexa : 0 ≤ expense.amount := by
        rw [he]
        exact not_lt.mp ha
      have hexd : pystrip expense.description ≠ "" := by
        rw [he]
        exact hd
      split
      · right
        exact ⟨expense, rfl, hexa, hexd⟩
      · right
        exact ⟨expense, rfl, hexa, hexd⟩

/-- The record `update_expense` leaves behind: either the expense list
is untouched or it is the output of a successful `updateFirst`. -/
lemma update_expense_expenses (today : Date) (r : Record) (i : Nat)
    (d? : Option String) (a? : Option ℚ) (c? : Option String) :
    (update_expense today r i d? a? c?).1.expenses = r.expenses ∨
    ∃ es2 e2, updateFirst r.expenses i d? a? c? =
        some (Except.ok (es2, e2)) ∧
      (update_expense today r i d? a? c?).1.expenses = es2 := by
  unfold update_expense
  split
  · left
    rfl
  · left
    rfl
  · rename_i p hu
    split
    · right
      exact ⟨p.1, p.2, hu, rfl⟩
    · right
      exact ⟨p.1, p.2, hu, rfl⟩

/-- `delete_expense` either leaves the expense list untouched or filters
the deleted id out of it. -/
lemma delete_expense_expenses (r : Record) (i : Nat) :
    (delete_expense r i).1.expenses = r.expenses ∨
    (delete_expense r i).1.expenses =
      r.expenses.filter (fun e => e.id != i) := by
  unfold delete_expense
  split
  · left
    rfl
  · right
    rfl

/-- `set_monthly_budget` never touches the expense list. -/
lemma set_monthly_budget_expenses (today : Date) (r : Record) (amount : ℚ)
    (m? y? : Option Nat) :
    (set_monthly_budget today r amount m? y?).1.expenses = r.expenses := by
  simp only [set_monthly_budget]
  split
  · rfl
  · split
    · rfl
    · rfl

/-- Membership in `get_categories`: exactly the trimmed non-blank
category values of stored expenses. -/
lemma mem_get_categories {r : Record} {c : String} :
    c ∈ get_categories r ↔
      ∃ e ∈ r.expenses, ∃ cs, e.category = some cs ∧
        pystrip cs ≠ "" ∧ pystrip cs = c := by
  unfold get_categories get_all_expenses
  rw [List.mem_toFinset, List.mem_filterMap]
  constructor
  · rintro ⟨e, he, hc⟩
    cases hcat : e.category with
    | none =>
        rw [catOf, hcat] at hc
        exact Option.noConfusion hc
    | some cs =>
        rw [catOf, hcat] at hc
        replace hc : (if pystrip cs = "" then none else
            some (pystrip cs)) = some c := hc
        by_cases hb : pystrip cs = ""
        · rw [if_pos hb] at hc
          exact Option.noConfusion hc
        · rw [if_neg hb] at hc
          injection hc with hc1
          exact ⟨e, he, cs, hcat, hb, hc1⟩
  · rintro ⟨e, he, cs, hcat, hb, hc⟩
    refine ⟨e, he, ?_⟩
    rw [catOf, hcat]
    show (if pystrip cs = "" then none else some (pystrip cs)) = some c
    rw [if_neg hb, hc]

/-- If no stored expense has the requested id, the linear scan of
`update_expense` finds nothing. -/
lemma updateFirst_eq_none {es : List Expense} {i : Nat}
    (d? : Option String) (a? : Option ℚ) (c? : Option String)
    (h : ∀ e ∈ es, e.id ≠ i) : updateFirst es i d? a? c? = none := by
  induction es with
  | nil => rfl
  | cons e rest ih =>
      have he : ¬ e.id = i := h e (List.mem_cons_self e rest)
      have hrest := ih (fun x hx => h x (List.mem_cons_of_mem e hx))
      simp [updateFirst, he, hrest]

/-- If no stored expense has the requested id, `delete_expense` raises
not-found and leaves the record untouched. -/
lemma delete_expense_not_present {r : Record} {i : Nat}
    (h : ∀ e ∈ r.expenses, e.id ≠ i) :
    delete_expense r i =
      (r, Except.error (Err.notFound "Expense not found")) := by
  unfold delete_expense get_all_expenses
  have hfilter : r.expenses.filter (fun e => e.id != i) = r.expenses := by
    apply List.filter_eq_self.mpr
    intro e he
    simpa using h e he
  simp [hfilter]

/-- After a successful `delete_expense`, no stored expense has the
deleted id. -/
lemma delete_expense_ok_no_id {r : Record} {i : Nat}
    (h : (delete_expense r i).2 = Except.ok ()) :
    ∀ e ∈ (delete_expense r i).1.expenses, e.id ≠ i := by
  unfold delete_expense get_all_expenses at h ⊢
  by_cases hc : (r.expenses.filter (fun e => e.id != i)).length =
      r.expenses.length
  · rw [if_pos hc] at h
    exact absurd h (by simp)
  · rw [if_neg hc] at h ⊢
    intro e he
    have := List.of_mem_filter he
    simpa using this

/-- C1: the claim says `add_expense` without `spent_on` succeeds with
today's date.  In the code, `date = spent_on or date.today()` makes
`date` a local of the method, so the call raises `UnboundLocalError`
instead; the CLI (which always passes `spent_on=None`) and the repo's
own test expect success, so this is a bug in the code.  Evaluated here
at a concrete input: the call errors and writes nothing. -/
theorem add_expense_default_date_unbound_local :
    add_expense testToday marchRecord "Lunch" 5 none none =
      (marchRecord, Except.error (Err.unboundLocal
        "local variable referenced before assignment")) := rfl

/-- C2 counterexample: adding an expense with amount `-5` (and a date
supplied) does fail with `InvalidInput`, but the persisted record is NOT
exactly the same: `next_id` has already written `last_id + 1` back
before `Expense` validation runs. -/
theorem add_expense_negative_amount_changes_record :
    (add_expense testToday marchRecord "Coffee" (-5) none
        (some { year := 2024, month := 3, day := 7 })).2 =
      Except.error (Err.invalidInput "Amount cannot be negative") ∧
    (add_expense testToday marchRecord "Coffee" (-5) none
        (some { year := 2024, month := 3, day := 7 })).1.last_id = 2 ∧
    marchRecord.last_id = 1 := by
  refine ⟨rfl, rfl, rfl⟩

/-- C2 amended: with `spent_on` supplied, `add_expense` with a negative
amount fails with `InvalidInput` and leaves `expenses` and `budgets`
unchanged, but increments `last_id` by exactly 1, because
`Storage.next_id()` persists its increment before the `Expense`
constructor validates the amount. -/
theorem add_expense_negative_amount_invalid_and_bumps_last_id
    (today : Date) (r : Record) (description : String) (amount : ℚ)
    (category : Option String) (d : Date) (hneg : amount < 0) :
    (add_expense today r description amount category (some d)).1 =
      { r with last_id := r.last_id + 1 } ∧
    ∃ e, (add_expense today r description amount category (some d)).2 =
      Except.error e ∧ e.isInvalidInput = true := by
  unfold add_expense mkExpense next_id
  by_cases hd : pystrip description = ""
  · simp [hd, Err.isInvalidInput]
  · simp [hd, hneg, Err.isInvalidInput]

/-- C2 amended, witness at amount `-5` on the concrete March record. -/
theorem add_expense_negative_amount_invalid_and_bumps_last_id_witness :
    ((-5 : ℚ) < 0) ∧
    ((add_expense testToday marchRecord "Coffee" (-5) none
        (some { year := 2024, month := 3, day := 7 })).1 =
      { marchRecord with last_id := marchRecord.last_id + 1 } ∧
    ∃ e, (add_expense testToday marchRecord "Coffee" (-5) none
        (some { year := 2024, month := 3, day := 7 })).2 =
      Except.error e ∧ e.isInvalidInput = true) :=
  ⟨by norm_num,
   add_expense_negative_amount_invalid_and_bumps_last_id testToday
     marchRecord "Coffee" (-5) none { year := 2024, month := 3, day := 7 }
     (by norm_num)⟩

/-- C3 counterexample: `update_expense` does not validate the new
description, so updating the Lunch expense's description to blanks
succeeds and persists a record whose stored expense has a
whitespace-only description — the claimed invariant fails on update. -/
theorem update_expense_stores_blank_description :
    (update_expense testToday blankRecord 1 (some "   ") none none).2 =
      Except.ok ({ lunchExpense with description := "   " }, none) ∧
    ((update_expense testToday blankRecord 1 (some "   ") none
        none).1.expenses.map (fun e => pystrip e.description)) = [""] := by
  refine ⟨by decide, by decide⟩

/-- C3 amended: every operation preserves "no stored expense has a
negative amount"; `add_expense`, `delete_expense` and
`set_monthly_budget` also preserve "no stored expense has a
whitespace-only description", but `update_expense` does not validate a
new description, so the description half of the claimed invariant is
not preserved by it (see the counterexample). -/
theorem ops_preserve_amount_invariant (today : Date) (r : Record)
    (description : String) (amount : ℚ) (category : Option String)
    (spent_on : Option Date) (i : Nat) (d? : Option String) (a? : Option ℚ)
    (c? : Option String) (bamount : ℚ) (m? y? : Option Nat)
    (hA : ∀ e ∈ r.expenses, 0 ≤ e.amount)
    (hD : ∀ e ∈ r.expenses, pystrip e.description ≠ "") :
    (∀ e ∈ (add_expense today r description amount category
        spent_on).1.expenses, 0 ≤ e.amount ∧ pystrip e.description ≠ "") ∧
    (∀ e ∈ (update_expense today r i d? a? c?).1.expenses,
        0 ≤ e.amount) ∧
    (∀ e ∈ (delete_expense r i).1.expenses,
        0 ≤ e.amount ∧ pystrip e.description ≠ "") ∧
    (∀ e ∈ (set_monthly_budget today r bamount m? y?).1.expenses,
        0 ≤ e.amount ∧ pystrip e.description ≠ "") := by
  refine ⟨?_, ?_, ?_, ?_⟩
  · rcases add_expense_expenses today r description amount category
        spent_on with hsh | ⟨ex, hsh, hexa, hexd⟩
    · rw [hsh]
      exact fun e he => ⟨hA e he, hD e he⟩
    · rw [hsh]
      intro e he
      rcases List.mem_append.mp he with h1 | h1
      · exact ⟨hA e h1, hD e h1⟩
      · obtain rfl := List.mem_singleton.mp h1
        exact ⟨hexa, hexd⟩
  · rcases update_expense_expenses today r i d? a? c? with
        hsh | ⟨es2, e2, hu, hsh⟩
    · rw [hsh]
      exact fun e he => hA e he
    · rw [hsh]
      intro e he
      rcases updateFirst_mem hu e he with h1 | ⟨x0, hx0, hap⟩
      · exact hA e h1
      · exact applyUpdate_amount hap (hA x0 hx0)
  · rcases delete_expense_expenses r i with hsh | hsh
    · rw [hsh]
      exact fun e he => ⟨hA e he, hD e he⟩
    · rw [hsh]
      intro e he
      have h1 := List.mem_of_mem_filter he
      exact ⟨hA e h1, hD e h1⟩
  · rw [set_monthly_budget_expenses]
    exact fun e he => ⟨hA e he, hD e he⟩

/-- C3 amended, witness: updating the Lunch expense's amount to 7 on a
record satisfying the invariant leaves the stored expense (the updated
Lunch) with a non-negative amount. -/
theorem ops_preserve_amount_invariant_witness :
    0 ≤ ({ lunchExpense with amount := 7 } : Expense).amount :=
  (ops_preserve_amount_invariant testToday blankRecord "Tea" 3 none
      (some { year := 2024, month := 3, day := 6 }) 1 none (some 7) none 0
      none none (by decide) (by decide)).2.1
    { lunchExpense with amount := 7 } (by decide)

/-- C4 counterexample: a supplied month of `0` is outside `[1,12]`, but
Python's `month or date.today().month` treats `0` as falsy, so both
budget operations silently use the current month (here June) instead of
failing with `InvalidInput`. -/
theorem budget_month_zero_not_rejected :
    (set_monthly_budget testToday emptyRecord 100 (some 0)
        (some 2024)).2 = Except.ok (2024, 6) ∧
    get_monthly_budget testToday emptyRecord (some 0) (some 2024) =
      Except.ok none := by
  refine ⟨rfl, rfl⟩

/-- C4 amended: for every supplied month `m ≥ 13` (i.e. outside `[1,12]`
and not the falsy value `0`, which is treated as "not supplied" and
defaults to the current month), both `set_monthly_budget` and
`get_monthly_budget` fail with `InvalidInput`; and `set_monthly_budget`
fails with `InvalidInput` whenever the amount is negative. -/
theorem budget_month_out_of_range_invalid
    (today : Date) (r : Record) (amount : ℚ) (m : Nat) (y? : Option Nat) :
    (13 ≤ m →
      (∃ e, (set_monthly_budget today r amount (some m) y?).2 =
          Except.error e ∧ e.isInvalidInput = true) ∧
      (∃ e, get_monthly_budget today r (some m) y? =
          Except.error e ∧ e.isInvalidInput = true)) ∧
    (amount < 0 →
      (set_monthly_budget today r amount (some m) y?).2 =
        Except.error (Err.invalidInput "Budget cannot be negative")) := by
  constructor
  · intro hm
    have hm0 : ¬ m = 0 := by omega
    have hrange : ¬ (1 ≤ m ∧ m ≤ 12) := by omega
    constructor
    · unfold set_monthly_budget pyOrNat
      by_cases ha : amount < 0
      · simp [ha, Err.isInvalidInput]
      · simp [ha, hm0, hrange, Err.isInvalidInput]
    · unfold get_monthly_budget pyOrNat
      simp [hm0, hrange, Err.isInvalidInput]
  · intro ha
    unfold set_monthly_budget
    simp [ha]

/-- C4 amended, witness at month 13 and at amount `-1`. -/
theorem budget_month_out_of_range_invalid_witness :
    (∃ e, (set_monthly_budget testToday emptyRecord 100 (some 13)
        (some 2024)).2 = Except.error e ∧ e.isInvalidInput = true) ∧
    (set_monthly_budget testToday emptyRecord (-1) (some 13)
        (some 2024)).2 =
      Except.error (Err.invalidInput "Budget cannot be negative") :=
  ⟨((budget_month_out_of_range_invalid testToday emptyRecord 100 13
      (some 2024)).1 (by norm_num)).1,
   (budget_month_out_of_range_invalid testToday emptyRecord (-1) 13
      (some 2024)).2 (by norm_num)⟩

/-- C5: over any trace of service calls in which every `add_expense`
succeeds, freely interleaved with `delete_expense` calls (successful or
not), the ids assigned to the successive adds are exactly
`last_id + 1, last_id + 2, …`: each consecutive add's id is one more
than the previous one, with no gaps and no reuse. -/
theorem add_ids_consecutive (today : Date) (r : Record) (ops : List Op)
    (h : allAddsOk today r ops = true) :
    assignedIds today r ops =
      List.range' (r.last_id + 1) (countAdds ops) := by
  induction ops generalizing r with
  | nil => rfl
  | cons op ops ih =>
      cases op with
      | addOp de a c s =>
          cases hr : (add_expense today r de a c s).2 with
          | error err =>
              exfalso
              simp only [allAddsOk, applyOp, hr, Except.map] at h
              exact Bool.noConfusion h
          | ok p =>
              obtain ⟨hid, hlast⟩ := add_expense_ok hr
              simp only [allAddsOk, applyOp, hr, Except.map] at h
              simp only [assignedIds, applyOp, hr, Except.map]
              rw [ih _ h, hid, hlast]
              rfl
      | delOp i =>
          simp only [allAddsOk, applyOp] at h
          cases hr : (delete_expense r i).2 with
          | error err =>
              simp only [assignedIds, applyOp, hr, Except.map]
              rw [ih _ h, delete_expense_last_id]
              rfl
          | ok u =>
              simp only [assignedIds, applyOp, hr, Except.map]
              rw [ih _ h, delete_expense_last_id]
              rfl

/-- C5 witness: from a fresh record, the trace add/delete/add assigns
ids 1 then 2. -/
theorem add_ids_consecutive_witness :
    allAddsOk testToday emptyRecord demoOps = true ∧
    assignedIds testToday emptyRecord demoOps = [1, 2] :=
  ⟨by decide,
   by
    rw [add_ids_consecutive testToday emptyRecord demoOps (by decide)]
    rfl⟩

/-- C6: when no stored expense carries the requested id,
`update_expense` fails with `NotFound` leaving the record unchanged, and
`delete_expense` fails with `NotFound`; consequently deleting the same
id twice fails with `NotFound` the second time, since the first
successful delete removes every expense with that id. -/
theorem missing_id_not_found (today : Date) (r : Record) (i : Nat)
    (d? : Option String) (a? : Option ℚ) (c? : Option String)
    (h : ∀ e ∈ r.expenses, e.id ≠ i) :
    update_expense today r i d? a? c? =
      (r, Except.error (Err.notFound "Expense not found")) ∧
    delete_expense r i =
      (r, Except.error (Err.notFound "Expense not found")) ∧
    ∀ r0 : Record, (delete_expense r0 i).2 = Except.ok () →
      (delete_expense (delete_expense r0 i).1 i).2 =
        Except.error (Err.notFound "Expense not found") := by
  refine ⟨?_, delete_expense_not_present h, ?_⟩
  · unfold update_expense
    rw [show get_all_expenses r = r.expenses from rfl,
      updateFirst_eq_none d? a? c? h]
  · intro r0 h0
    rw [delete_expense_not_present (delete_expense_ok_no_id h0)]

/-- C6 witness: updating or deleting id 2 in a record whose only
expense has id 1 fails with `NotFound`, and a second delete of id 1
fails with `NotFound` after the first one succeeded. -/
theorem missing_id_not_found_witness :
    update_expense testToday blankRecord 2 none none none =
      (blankRecord, Except.error (Err.notFound "Expense not found")) ∧
    (delete_expense blankRecord 1).2 = Except.ok () ∧
    (delete_expense (delete_expense blankRecord 1).1 1).2 =
      Except.error (Err.notFound "Expense not found") :=
  ⟨(missing_id_not_found testToday blankRecord 2 none none none
      (by decide)).1,
   by decide,
   (missing_id_not_found testToday emptyRecord 1 none none none
      (by decide)).2.2 blankRecord (by decide)⟩

/-- C8: for a month in `[1,12]` and over records whose stored dates are
real Python dates (year ≥ 1) and whose stored budgets are non-negative
(the data model's invariant), `budget_warning_for_month` computes
exactly the warning the claim describes: absent when no budget is
stored for the `(year, month)` key, otherwise a warning carrying the
key, the budget and the spent amount exactly when spent exceeds the
budget (absent on equality). -/
theorem budget_warning_matches_claim (today : Date) (r : Record)
    (m y : Nat) (hm1 : 1 ≤ m) (hm2 : m ≤ 12)
    (hyears : ∀ e ∈ r.expenses, 1 ≤ e.date.year)
    (hbudgets : ∀ p ∈ r.budgets, 0 ≤ p.2) :
    budget_warning_for_month today r m y =
      Except.ok (claimed_budget_warning r m y) := by
  have hm0 : m ≠ 0 := by omega
  unfold budget_warning_for_month
  rw [get_monthly_budget_eval today r m y hm1 hm2 hm0]
  unfold claimed_budget_warning
  by_cases hy : y = 0
  · subst hy
    have hyr : pyOrNat (some 0) today.year = today.year := rfl
    rw [hyr]
    have hs0 : spent_for_month r m 0 = 0 := spent_for_month_year_zero hyears
    cases hbt : budgetsGet r.budgets (today.year, m) with
    | none =>
        cases hb0 : budgetsGet r.budgets (0, m) with
        | none => rfl
        | some b0 =>
            have hnb : ¬ b0 < spent_for_month r m 0 := by
              rw [hs0]
              exact not_lt.mpr (budgetsGet_nonneg hbudgets hb0)
            simp [hnb]
    | some bt =>
        have hnbt : ¬ bt < spent_for_month r m 0 := by
          rw [hs0]
          exact not_lt.mpr (budgetsGet_nonneg hbudgets hbt)
        cases hb0 : budgetsGet r.budgets (0, m) with
        | none => simp [hnbt]
        | some b0 =>
            have hnb : ¬ b0 < spent_for_month r m 0 := by
              rw [hs0]
              exact not_lt.mpr (budgetsGet_nonneg hbudgets hb0)
            simp [hnbt, hnb]
  · have hyr : pyOrNat (some y) today.year = y := by
      simp [pyOrNat, hy]
    rw [hyr]
    cases hbg : budgetsGet r.budgets (y, m) with
    | none => rfl
    | some b =>
        by_cases hlt : b < spent_for_month r m y
        · simp [hlt, month_key]
        · simp [hlt, month_key]

/-- C8 witness, the spec's scenario: Lunch of 20 on 2024-03-05 with a
2024-03 budget of 15 yields a warning carrying key 2024-03, budget 15
and spent 20. -/
theorem budget_warning_matches_claim_witness :
    budget_warning_for_month testToday marchRecord 3 2024 =
      Except.ok (some { key := (2024, 3), budget := 15, spent := 20 }) := by
  rw [budget_warning_matches_claim testToday marchRecord 3 2024 (by omega)
    (by omega) (by decide) (by decide)]
  have hs : spent_for_month marchRecord 3 2024 = 20 := by
    simp [spent_for_month, get_all_expenses, marchRecord, lunchExpense]
  have hb : budgetsGet marchRecord.budgets (2024, 3) = some 15 := by decide
  unfold claimed_budget_warning
  rw [hb, hs]
  simp [show (15 : ℚ) < 20 by norm_num]

/-- C7: `total_expenses` equals the sum of `amount` over
`list_expenses`, and equals 0 when there are no stored expenses; this
holds for every record state, hence after any sequence of operations. -/
theorem total_expenses_eq_sum_over_list (r : Record) :
    total_expenses r = ((list_expenses r).map (fun e => e.amount)).sum ∧
    (list_expenses r = [] → total_expenses r = 0) := by
  refine ⟨rfl, fun h => ?_⟩
  unfold total_expenses get_all_expenses
  unfold list_expenses get_all_expenses at h
  rw [h]
  rfl

/-- C7 witness: on the empty record the total is 0. -/
theorem total_expenses_eq_sum_over_list_witness :
    total_expenses emptyRecord = 0 :=
  (total_expenses_eq_sum_over_list emptyRecord).2 rfl

/-- C10: every string in `get_categories` is non-blank after trimming,
so filtering by it succeeds, returns a non-empty list, and every
returned expense's trimmed category is exactly that string; conversely
a category whose trimmed value is absent from `get_categories` yields
no expense. -/
theorem categories_filter_agreement (r : Record) (c : String) :
    (c ∈ get_categories r →
      pystrip c ≠ "" ∧
      ∃ l, list_expenses_by_category r c = Except.ok l ∧ l ≠ [] ∧
        ∀ e ∈ l, ∃ cs, e.category = some cs ∧ pystrip cs = c) ∧
    (pystrip c ∉ get_categories r →
      ∀ l, list_expenses_by_category r c = Except.ok l → l = []) := by
  constructor
  · intro hc
    obtain ⟨e, he, cs, hcat, hb, hcs⟩ := mem_get_categories.mp hc
    have hcc : pystrip c = c := by
      rw [← hcs, pystrip_idem]
    have hcne : pystrip c ≠ "" := by
      rw [hcc, ← hcs]
      exact hb
    refine ⟨hcne, ?_⟩
    unfold list_expenses_by_category get_all_expenses
    rw [if_neg hcne]
    refine ⟨_, rfl, ?_, ?_⟩
    · have hmem : e ∈ r.expenses.filter (fun x =>
          match x.category with
          | none => false
          | some c2 => pystrip c2 == pystrip c) := by
        refine List.mem_filter.mpr ⟨he, ?_⟩
        rw [hcat]
        simp only [beq_iff_eq]
        rw [hcs, hcc]
      intro hnil
      rw [hnil] at hmem
      exact absurd hmem (List.not_mem_nil e)
    · intro x hx
      obtain ⟨hx1, hx2⟩ := List.mem_filter.mp hx
      cases hxc : x.category with
      | none =>
          rw [hxc] at hx2
          simp at hx2
      | some cx =>
          rw [hxc] at hx2
          have heq : pystrip cx = pystrip c := by simpa using hx2
          exact ⟨cx, rfl, by rw [heq, hcc]⟩
  · intro hnin l hl
    unfold list_expenses_by_category get_all_expenses at hl
    by_cases hce : pystrip c = ""
    · rw [if_pos hce] at hl
      exact Except.noConfusion hl
    · rw [if_neg hce] at hl
      injection hl with hl1
      rw [← hl1, List.eq_nil_iff_forall_not_mem]
      intro x hx
      obtain ⟨hx1, hx2⟩ := List.mem_filter.mp hx
      cases hxc : x.category with
      | none =>
          rw [hxc] at hx2
          simp at hx2
      | some cx =>
          rw [hxc] at hx2
          have heq : pystrip cx = pystrip c := by simpa using hx2
          apply hnin
          refine mem_get_categories.mpr ⟨x, hx1, cx, hxc, ?_, heq⟩
          rw [heq]
          exact hce

/-- C10 witness: the blank-budget record stores category `" Food "`, so
`get_categories` holds exactly `"Food"`, and filtering by `"Food"`
returns the Lunch expense. -/
theorem categories_filter_agreement_witness :
    "Food" ∈ get_categories blankRecord ∧
    (pystrip "Food" ≠ "" ∧
      ∃ l, list_expenses_by_category blankRecord "Food" = Except.ok l ∧
        l ≠ [] ∧
        ∀ e ∈ l, ∃ cs, e.category = some cs ∧ pystrip cs = "Food") :=
  ⟨by decide,
   (categories_filter_agreement blankRecord "Food").1 (by decide)⟩

/-- C9: `save_all_expenses` overwrites exactly the `expenses` field and
preserves `last_id` and `budgets`. -/
theorem save_all_expenses_frame (r : Record) (es : List Expense) :
    (save_all_expenses r es).expenses = es ∧
    (save_all_expenses r es).last_id = r.last_id ∧
    (save_all_expenses r es).budgets = r.budgets :=
  ⟨rfl, rfl, rfl⟩

end ExpenseTracker
